import Mathlib

/-!
# Verification of the Windows artifact extraction engine (`extractor.py`)

Shallow embedding of the artifact extraction engine:

* `resolve_case_insensitive_path` — the case-insensitive Path Resolver;
* `copy_file_or_dir` — the Recursive Copier (file and directory cases);
* `open_ewf_image_and_find_fs` — the Volume Selector;
* `extract_artifacts` — the catalog-driven extraction run.

The external filesystem adapter (pytsk3) and evidence-container reader
(libewf) are modelled at their interface boundary: a filesystem `FS`
exposes `openDir` (directory listing, `none` models a raised exception)
and `openFile` (file open, `none` models a raised exception); a file
handle carries the metadata-declared size and the byte stream the source
actually yields, with `read_random offset count` returning up to `count`
bytes starting at `offset` (short or empty at the end of the available
data, per the adapter contract).  Local-disk operations (`mkdir`,
`open(..., "wb")`) are modelled as always succeeding; the bytes written
to each destination are collected in a `Write` list.
-/

namespace Extractor

/-- A directory entry as yielded by the filesystem adapter.  `name = none`
models an entry whose `info` or `info.name` is absent (such entries are
skipped by every loop that guards on `getattr(entry, "info", None)`);
`name = some n` models an entry whose name decodes to `n`. -/
structure DirEntry where
  name : Option String
deriving DecidableEq, Repr

/-- A file handle as returned by `fs.open`.  `metaSize` is the Python
variable `size` after the metadata probe: `none` when `f.info`/`f.info.meta`
is absent or the probe raised, `some v` when the metadata exposes the
value `v` (with a missing or `None` `size` attribute coerced to `0`, as in
`int(getattr(f.info.meta, "size", None) or 0)`).  `content` is the byte
stream the source actually yields for this file. -/
structure FileHandle where
  metaSize : Option Nat
  content : List Nat
deriving DecidableEq, Repr

/-- The filesystem adapter interface consumed by the engine.
`openDir p = none` and `openFile p = none` model the corresponding
pytsk3 call raising an exception at path `p`. -/
structure FS where
  openDir : String → Option (List DirEntry)
  openFile : String → Option FileHandle

/-- The two ways `resolve_case_insensitive_path` raises
`FileNotFoundError`: the current directory cannot be opened
(`raise FileNotFoundError(f"Cannot open directory {cur}: {e}")`), or a
component has no case-insensitive match
(`raise FileNotFoundError(f"Component '{part}' not found under {cur}")`).
Both constructors model the single Python exception type
`FileNotFoundError`. -/
inductive ResolveError where
  | cannotOpen (cur : String)
  | notFound (part : String) (cur : String)
deriving DecidableEq, Repr

/-- Python `str.lower()` on a decoded name, modelled per character. -/
def lowerStr (s : String) : String :=
  String.mk (s.toList.map Char.toLower)

/-- Python `str.startswith(pre)`. -/
def startsWithStr (s pre : String) : Bool :=
  pre.toList.isPrefixOf s.toList

/-- Split a character list at every `'/'` (the splitting underlying
`Path(path).parts`). -/
def splitSlashAux : List Char → List Char → List String
  | [], acc => [String.mk acc.reverse]
  | c :: rest, acc =>
    if c == '/' then String.mk acc.reverse :: splitSlashAux rest []
    else splitSlashAux rest (c :: acc)

/-- Split a path string at every `'/'`. -/
def splitSlash (path : String) : List String :=
  splitSlashAux path.toList []

/-- `[p for p in Path(path).parts if p not in ("/", "")]`.  POSIX
`pathlib` collapses repeated slashes and single-dot components and keeps
`".."`; the root `"/"` (or, for a path starting with exactly two slashes,
the special root `"//"`, which the filter does not remove) is the first
element of `parts`. -/
def pathParts (path : String) : List String :=
  let comps := (splitSlash path).filter (fun p => !(p == "" || p == "."))
  match path.toList with
  | '/' :: '/' :: '/' :: _ => comps
  | '/' :: '/' :: _ => "//" :: comps
  | _ => comps

/-- Python `str.rstrip('/')`: remove all trailing slashes. -/
def rstripSlashes (s : String) : String :=
  String.mk ((s.toList.reverse.dropWhile (fun c => c == '/')).reverse)

/-- `f"{cur.rstrip('/')}/{found}"`. -/
def childPath (cur found : String) : String :=
  rstripSlashes cur ++ "/" ++ found

/-- The entry scan of one resolver step: skip entries without a usable
name, return the first entry whose decoded name matches `part`
case-insensitively (`name.lower() == part.lower()`), preserving the
on-disk spelling. -/
def firstCIMatch (entries : List DirEntry) (part : String) : Option String :=
  match entries with
  | [] => none
  | e :: rest =>
    match e.name with
    | none => firstCIMatch rest part
    | some name =>
      if lowerStr name == lowerStr part then some name else firstCIMatch rest part

/-- The component walk of `resolve_case_insensitive_path`: starting from
`cur`, open the current directory (failure raises `cannotOpen`), find the
first case-insensitive match for the next component (no match raises
`notFound`), and descend into `childPath cur found`. -/
def resolveFrom (fs : FS) : String → List String → Except ResolveError String
  | cur, [] => .ok cur
  | cur, part :: rest =>
    match fs.openDir cur with
    | none => .error (.cannotOpen cur)
    | some entries =>
      match firstCIMatch entries part with
      | none => .error (.notFound part cur)
      | some found => resolveFrom fs (childPath cur found) rest

/-- `resolve_case_insensitive_path(fs, path)`: resolve a path
case-insensitively, returning the real path in the image (preserving
case); an empty path or `"/"` resolves to `"/"` without a lookup. -/
def resolve_case_insensitive_path (fs : FS) (path : String) : Except ResolveError String :=
  if path = "" ∨ path = "/" then .ok "/" else resolveFrom fs "/" (pathParts path)

/-- Diagnostics emitted through `log_cb` by the copier and the main
routine.  `missing` is the `[MISSING]` line, `errOpen` the
`[ERR] cannot open file` line, `saved` the `[SAVED] src -> dst` line;
`info` carries the fixed-text progress and category-miss messages of
`extract_artifacts`. -/
inductive LogMsg where
  | missing (srcPath : String) (e : ResolveError)
  | errOpen (realSrc : String)
  | saved (realSrc : String) (dst : List String)
  | info (text : String)
deriving DecidableEq, Repr

/-- One destination file written to local storage: its path (as a list of
segments below the output root) and its bytes. -/
abbrev Write := List String × List Nat

/-- The adapter's `f.read_random(offset, count)`: up to `count` bytes of
the available stream starting at `offset`; short or empty at the end of
the data, per the Image/Volume Adapter contract. -/
def read_random (f : FileHandle) (offset count : Nat) : List Nat :=
  (f.content.drop offset).take count

/-- The no-size read loop of `copy_file_or_dir`: read fixed 8192-byte
chunks at increasing offsets until an empty read, concatenating the bytes
written. -/
def readNoSizeLoop (f : FileHandle) (offset : Nat) : List Nat :=
  if h : (read_random f offset 8192).length = 0 then []
  else
    read_random f offset 8192 ++
      readNoSizeLoop f (offset + (read_random f offset 8192).length)
termination_by f.content.length - offset
decreasing_by
  simp only [read_random, List.length_take, List.length_drop] at h ⊢
  omega

/-- `CHUNK = 4 * 1024 * 1024`. -/
def CHUNK : Nat := 4 * 1024 * 1024

/-- The sized read loop of `copy_file_or_dir`: while `offset < size`,
read `min CHUNK (size - offset)` bytes; stop on an empty read (truncated
or damaged file), concatenating the bytes written. -/
def readSizedLoop (f : FileHandle) (size offset : Nat) : List Nat :=
  if h : offset < size then
    if h2 : (read_random f offset (min CHUNK (size - offset))).length = 0 then []
    else
      read_random f offset (min CHUNK (size - offset)) ++
        readSizedLoop f size (offset + (read_random f offset (min CHUNK (size - offset))).length)
  else []
termination_by size - offset
decreasing_by
  simp only [read_random, List.length_take, List.length_drop] at h2 ⊢
  omega

/-- The file branch's choice of read loop: `if not size` (i.e. the
metadata probe yielded `None` or `0`) read until EOF in 8192-byte chunks,
otherwise read up to `size` bytes in `CHUNK`-sized reads. -/
def fileBytesOut (f : FileHandle) : List Nat :=
  match f.metaSize with
  | none => readNoSizeLoop f 0
  | some size => if size = 0 then readNoSizeLoop f 0 else readSizedLoop f size 0

/-- The directory branch's entry loop of `copy_file_or_dir`: skip entries
without a usable name and the synthetic `"."`/`".."` entries; recursively
copy each remaining entry `name` from `f"{real_src}/{name}"` to
`dst_path / name`; aggregate success as logical OR across children,
concatenating logs and writes in order.  `recur` is the recursive call
(`none` models non-termination / fuel exhaustion, propagated). -/
def copyChildren (recur : String → List String → Option (Bool × List LogMsg × List Write))
    (realSrc : String) (dstPath : List String) :
    List DirEntry → Option (Bool × List LogMsg × List Write)
  | [] => some (false, [], [])
  | e :: rest =>
    match e.name with
    | none => copyChildren recur realSrc dstPath rest
    | some name =>
      if name = "." ∨ name = ".." then copyChildren recur realSrc dstPath rest
      else
        match recur (realSrc ++ "/" ++ name) (dstPath ++ [name]) with
        | none => none
        | some (b, l, w) =>
          match copyChildren recur realSrc dstPath rest with
          | none => none
          | some (b2, l2, w2) => some (b || b2, l ++ l2, w ++ w2)

/-- `copy_file_or_dir(fs, src_path, dst_path)`: resolve the source path
case-insensitively (failure logs `[MISSING]` and returns `False`); try to
open it as a directory and copy children recursively; otherwise treat it
as a file (open failure logs `[ERR]` and returns `False`; success streams
the bytes to the destination, logs `[SAVED]` and returns `True`).
Returns `(saved, logs, writes)`; the extra fuel argument bounds the
recursion depth, with `none` modelling a run that does not terminate
within the given fuel. -/
def copy_file_or_dir (fs : FS) : Nat → String → List String →
    Option (Bool × List LogMsg × List Write)
  | 0, _, _ => none
  | fuel + 1, srcPath, dstPath =>
    match resolve_case_insensitive_path fs srcPath with
    | .error e => some (false, [.missing srcPath e], [])
    | .ok realSrc =>
      match fs.openDir realSrc with
      | some entries => copyChildren (copy_file_or_dir fs fuel) realSrc dstPath entries
      | none =>
        match fs.openFile realSrc with
        | none => some (false, [.errOpen realSrc], [])
        | some f => some (true, [.saved realSrc dstPath], [(dstPath, fileBytesOut f)])

/-- One partition-table entry as exposed by the adapter's volume
enumeration.  `start` is `int(part.start)`; `length` is the partition's
sector count (exposed by the adapter but never examined by the code);
`desc` is the processed description
`bytes(part.desc).strip(b"\x00").decode(errors="ignore").strip()`. -/
structure Partition where
  start : Int
  length : Nat
  desc : String
deriving DecidableEq, Repr

/-- The partition table returned by `pytsk3.Volume_Info`.  `blockSize`
models `getattr(volume.info, "block_size", 512)`: `none` when the
attribute is absent. -/
structure VolumeInfo where
  blockSize : Option Nat
  parts : List Partition

/-- The opened evidence container, as seen through the pytsk3 adapter:
`fsAt off` is the result of `pytsk3.FS_Info(img, offset=off)` (`none`
models a raised exception), `volume` the result of
`pytsk3.Volume_Info(img)`. -/
structure Image where
  fsAt : Nat → Option FS
  volume : Option VolumeInfo

/-- The two fatal errors of `open_ewf_image_and_find_fs` after the
container itself opened: `Could not identify a partition table` and
`No usable filesystem found in the E01 image.`. -/
inductive OpenError where
  | noPartitionTable
  | noUsableFilesystem
deriving DecidableEq, Repr

/-- The root listing of a candidate filesystem:
`[_decode_name(e.info.name) for e in root if getattr(e, "info", None) and e.info.name]`,
with a failing `open_dir("/")` giving `names = []`. -/
def rootNames (fs : FS) : List String :=
  match fs.openDir "/" with
  | none => []
  | some es => es.filterMap (fun e => e.name)

/-- `desc or f"start={start}"`: the partition description, or a
`start=`-prefixed fallback when the description is empty. -/
def descOr (p : Partition) : String :=
  if p.desc = "" then "start=" ++ toString p.start else p.desc

/-- The partition loop of `open_ewf_image_and_find_fs`: skip partitions
with `start <= 0`; at byte offset `start * sector_size` try to open a
filesystem; if its root (case-insensitively) holds `Windows`, `Users` or
`Documents and Settings`, return it immediately; otherwise remember the
first openable filesystem as the fallback candidate, returned after the
loop (or `noUsableFilesystem` if there was none). -/
def findFSLoop (img : Image) (sectorSize : Nat) :
    List Partition → Option (FS × Nat × String) → Except OpenError (FS × Nat × String)
  | [], none => .error .noUsableFilesystem
  | [], some best => .ok best
  | p :: rest, best =>
    if p.start ≤ 0 then findFSLoop img sectorSize rest best
    else
      match img.fsAt (p.start.toNat * sectorSize) with
      | none => findFSLoop img sectorSize rest best
      | some fs =>
        let names := rootNames fs
        let hasWindows := names.any (fun n => lowerStr n == "windows")
        let hasUsers :=
          names.any (fun n => lowerStr n == "users" || lowerStr n == "documents and settings")
        if hasWindows || hasUsers then .ok (fs, p.start.toNat * sectorSize, descOr p)
        else
          match best with
          | some b => findFSLoop img sectorSize rest (some b)
          | none => findFSLoop img sectorSize rest (some (fs, p.start.toNat * sectorSize, descOr p))

/-- `open_ewf_image_and_find_fs(image_path)` from the point where the
container is open: first try a filesystem at byte offset 0 (returned with
description `"offset 0"`); otherwise enumerate the partition table
(failure is fatal) and run the partition loop. -/
def open_ewf_image_and_find_fs (img : Image) : Except OpenError (FS × Nat × String) :=
  match img.fsAt 0 with
  | some fs => .ok (fs, 0, "offset 0")
  | none =>
    match img.volume with
    | none => .error .noPartitionTable
    | some vol => findFSLoop img (vol.blockSize.getD 512) vol.parts none

/-- The five fixed system-hive targets, in dictionary insertion order. -/
def system_targets : List (String × String) :=
  [("SYSTEM", "/Windows/System32/config/SYSTEM"),
   ("SOFTWARE", "/Windows/System32/config/SOFTWARE"),
   ("SAM", "/Windows/System32/config/SAM"),
   ("SECURITY", "/Windows/System32/config/SECURITY"),
   ("DEFAULT", "/Windows/System32/config/DEFAULT")]

/-- The system-hive loop: for each target copy the hive and its `.LOG1` /
`.LOG2` siblings into `registry/System`; individual outcomes are ignored
(misses already produced `[MISSING]` log lines inside the copier). -/
def sysHivesStep (fs : FS) (fuel : Nat) :
    List (String × String) → Option (List LogMsg × List Write)
  | [] => some ([], [])
  | (name, path) :: rest => do
    let (_, l1, w1) ← copy_file_or_dir fs fuel path ["registry", "System", name]
    let (_, l2, w2) ← copy_file_or_dir fs fuel (path ++ ".LOG1")
      ["registry", "System", name ++ ".LOG1"]
    let (_, l3, w3) ← copy_file_or_dir fs fuel (path ++ ".LOG2")
      ["registry", "System", name ++ ".LOG2"]
    let (lr, wr) ← sysHivesStep fs fuel rest
    some (l1 ++ l2 ++ l3 ++ lr, w1 ++ w2 ++ w3 ++ wr)

/-- The `$MFT` and `$LogFile` copies into `filesystem/`. -/
def fsArtifactsStep (fs : FS) (fuel : Nat) : Option (List LogMsg × List Write) := do
  let (_, l1, w1) ← copy_file_or_dir fs fuel "/$MFT" ["filesystem", "$MFT"]
  let (_, l2, w2) ← copy_file_or_dir fs fuel "/$LogFile" ["filesystem", "$LogFile"]
  some (l1 ++ l2, w1 ++ w2)

/-- Try an ordered list of candidate source paths against one
destination, stopping at the first copy that reports success (the `break`
in the source loops), concatenating the logs and writes of the attempts
made. -/
def tryCandidates (fs : FS) (fuel : Nat) (dst : List String) :
    List String → Option (Bool × List LogMsg × List Write)
  | [] => some (false, [], [])
  | c :: rest => do
    let (b, l, w) ← copy_file_or_dir fs fuel c dst
    if b then some (true, l, w)
    else do
      let (b2, l2, w2) ← tryCandidates fs fuel dst rest
      some (b2, l ++ l2, w ++ w2)

/-- The ordered historical path shapes tried for the USN change journal. -/
def usn_candidates : List String :=
  ["/$Extend/$UsnJrnl/$J", "/$UsnJrnl/$J", "/$Extend/$UsnJrnl/$J:$J"]

/-- The `$Extend` fallback search: scan the container's entries for a
name that lowercases to a `usnjrnl` prefix and try the canonical `$J`
below it, stopping at the first success.  (In the source an entry with
absent `info` raises and silently aborts the remainder of the search;
such entries contribute no copy either way and are skipped here.) -/
def usnSearchEntries (fs : FS) (fuel : Nat) (ext : String) :
    List DirEntry → Option (Bool × List LogMsg × List Write)
  | [] => some (false, [], [])
  | e :: rest =>
    match e.name with
    | none => usnSearchEntries fs fuel ext rest
    | some nm =>
      if startsWithStr (lowerStr nm) "usnjrnl" then do
        let (b, l, w) ← copy_file_or_dir fs fuel (ext ++ "/" ++ nm ++ "/$J") ["filesystem", "$J"]
        if b then some (true, l, w)
        else do
          let (b2, l2, w2) ← usnSearchEntries fs fuel ext rest
          some (b2, l ++ l2, w ++ w2)
      else usnSearchEntries fs fuel ext rest

/-- The USN fallback search block: resolve `/$Extend` and scan it; any
failure (resolution or listing) is swallowed by the surrounding
`except Exception: pass`. -/
def usnSearch (fs : FS) (fuel : Nat) : Option (Bool × List LogMsg × List Write) :=
  match resolve_case_insensitive_path fs "/$Extend" with
  | .error _ => some (false, [], [])
  | .ok ext =>
    match fs.openDir ext with
    | none => some (false, [], [])
    | some es => usnSearchEntries fs fuel ext es

/-- The `$J` category: try the known candidates, then the `$Extend`
search, logging `[USN] $J not found` when both fail. -/
def usnStep (fs : FS) (fuel : Nat) : Option (List LogMsg × List Write) := do
  let (b, l, w) ← tryCandidates fs fuel ["filesystem", "$J"] usn_candidates
  if b then some (l, w)
  else do
    let (b2, l2, w2) ← usnSearch fs fuel
    if b2 then some (l ++ l2, w ++ w2)
    else some (l ++ l2 ++ [.info "[USN] $J not found"], w ++ w2)

/-- The two direct Prefetch attempts; both are always made (the source
loop has no `break`) and either success marks the category saved. -/
def prefetchDirect (fs : FS) (fuel : Nat) : Option (Bool × List LogMsg × List Write) := do
  let (b1, l1, w1) ← copy_file_or_dir fs fuel "/Windows/Prefetch" ["prefetch"]
  let (b2, l2, w2) ← copy_file_or_dir fs fuel "/windows/Prefetch" ["prefetch"]
  some (b1 || b2, l1 ++ l2, w1 ++ w2)

/-- The Prefetch fallback search: a candidate below the resolved Windows
root plus every top-level name that lowercases to `prefetch`, tried in
order until one copy succeeds.  A failing root listing aborts the whole
search block (the candidate loop sits after the scan inside the same
`try`). -/
def prefetchSearch (fs : FS) (fuel : Nat) : Option (Bool × List LogMsg × List Write) :=
  let winRoot : Option String :=
    match resolve_case_insensitive_path fs "/Windows" with
    | .ok r => some r
    | .error _ => none
  match fs.openDir "/" with
  | none => some (false, [], [])
  | some es =>
    let cands :=
      (match winRoot with
       | some r => [r ++ "/Prefetch"]
       | none => []) ++
      (es.filterMap (fun e => e.name)).filterMap
        (fun nm => if lowerStr nm == "prefetch" then some ("/" ++ nm) else none)
    tryCandidates fs fuel ["prefetch"] cands

/-- The Prefetch category: the two direct attempts, then the search,
logging `[PREFETCH] not found` when everything failed. -/
def prefetchStep (fs : FS) (fuel : Nat) : Option (List LogMsg × List Write) := do
  let (b, l, w) ← prefetchDirect fs fuel
  if b then some (l, w)
  else do
    let (b2, l2, w2) ← prefetchSearch fs fuel
    if b2 then some (l ++ l2, w ++ w2)
    else some (l ++ l2 ++ [.info "[PREFETCH] not found"], w ++ w2)

/-- Locate the users container: `/Users`, then the legacy
`/Documents and Settings`; `none` when both resolutions fail. -/
def usersPath (fs : FS) : Option String :=
  match resolve_case_insensitive_path fs "/Users" with
  | .ok p => some p
  | .error _ =>
    match resolve_case_insensitive_path fs "/Documents and Settings" with
    | .ok p => some p
    | .error _ => none

/-- The synthetic/shared account names excluded from per-user
enumeration. -/
def skipUserName (n : String) : Bool :=
  n == "." || n == ".." || n == "Public" || n == "All Users" ||
    n == "Default" || n == "Default User"

/-- One user's browser copies: both Chrome path shapes and both Edge path
shapes, all four attempted unconditionally, into
`browser/Chrome/<user>` and `browser/Edge/<user>`. -/
def browserUserCopies (fs : FS) (fuel : Nat) (usersP uname : String) :
    Option (List LogMsg × List Write) := do
  let (_, l1, w1) ← copy_file_or_dir fs fuel
    (usersP ++ "/" ++ uname ++ "/AppData/Local/Google/Chrome/User Data")
    ["browser", "Chrome", uname]
  let (_, l2, w2) ← copy_file_or_dir fs fuel
    (usersP ++ "/" ++ uname ++ "/AppData/Local/Google/Chrome")
    ["browser", "Chrome", uname]
  let (_, l3, w3) ← copy_file_or_dir fs fuel
    (usersP ++ "/" ++ uname ++ "/AppData/Local/Microsoft/Edge/User Data")
    ["browser", "Edge", uname]
  let (_, l4, w4) ← copy_file_or_dir fs fuel
    (usersP ++ "/" ++ uname ++ "/AppData/Local/Microsoft/Edge")
    ["browser", "Edge", uname]
  some (l1 ++ l2 ++ l3 ++ l4, w1 ++ w2 ++ w3 ++ w4)

/-- The browser section's user loop: skip unnamed entries and
synthetic/shared accounts, then run the per-user browser copies. -/
def browsersUsersLoop (fs : FS) (fuel : Nat) (usersP : String) :
    List DirEntry → Option (List LogMsg × List Write)
  | [] => some ([], [])
  | e :: rest =>
    match e.name with
    | none => browsersUsersLoop fs fuel usersP rest
    | some uname =>
      if skipUserName uname then browsersUsersLoop fs fuel usersP rest
      else do
        let (l, w) ← browserUserCopies fs fuel usersP uname
        let (l2, w2) ← browsersUsersLoop fs fuel usersP rest
        some (l ++ l2, w ++ w2)

/-- The browser artifacts category: without a users container log
`[BROWSERS] No Users folder found`; a failing user listing logs
`[BROWSERS] enumerate users failed`. -/
def browsersStep (fs : FS) (fuel : Nat) (usersP : Option String) :
    Option (List LogMsg × List Write) :=
  match usersP with
  | none => some ([.info "[BROWSERS] No Users folder found"], [])
  | some up =>
    match fs.openDir up with
    | none => some ([.info "[BROWSERS] enumerate users failed"], [])
    | some es => browsersUsersLoop fs fuel up es

/-- `NTUSER.DAT` and its transaction logs, canonical and lower-case
spellings. -/
def nt_names : List String :=
  ["NTUSER.DAT", "NTUSER.DAT.LOG1", "NTUSER.DAT.LOG2",
   "ntuser.dat", "ntuser.dat.log1", "ntuser.dat.log2"]

/-- `UsrClass.dat` and its transaction logs, canonical and lower-case
spellings. -/
def usrclass_names : List String :=
  ["UsrClass.dat", "UsrClass.dat.LOG1", "UsrClass.dat.LOG2",
   "usrclass.dat", "usrclass.dat.log1", "usrclass.dat.log2"]

/-- Copy each name of a list via `mk` (which builds the source path and
destination from a name), ignoring the per-copy outcomes. -/
def copyEach (fs : FS) (fuel : Nat) (mk : String → String × List String) :
    List String → Option (List LogMsg × List Write)
  | [] => some ([], [])
  | nm :: rest => do
    let (_, l, w) ← copy_file_or_dir fs fuel (mk nm).1 (mk nm).2
    let (l2, w2) ← copyEach fs fuel mk rest
    some (l ++ l2, w ++ w2)

/-- One user's registry hives: the six `NTUSER` spellings in the user
root, then the six `UsrClass` spellings under each of the two
application-data bases, all into `registry/PerUser/<user>` (the
`found_uc` flag of the source only guards a no-op). -/
def regUserHives (fs : FS) (fuel : Nat) (usersP uname : String) :
    Option (List LogMsg × List Write) := do
  let (l1, w1) ← copyEach fs fuel
    (fun nm => (usersP ++ "/" ++ uname ++ "/" ++ nm, ["registry", "PerUser", uname, nm]))
    nt_names
  let (l2, w2) ← copyEach fs fuel
    (fun nm => (usersP ++ "/" ++ uname ++ "/AppData/Local/Microsoft/Windows/" ++ nm,
      ["registry", "PerUser", uname, nm]))
    usrclass_names
  let (l3, w3) ← copyEach fs fuel
    (fun nm => (usersP ++ "/" ++ uname ++ "/AppData/Local/Windows/" ++ nm,
      ["registry", "PerUser", uname, nm]))
    usrclass_names
  some (l1 ++ l2 ++ l3, w1 ++ w2 ++ w3)

/-- The per-user registry section's user loop. -/
def regUsersLoop (fs : FS) (fuel : Nat) (usersP : String) :
    List DirEntry → Option (List LogMsg × List Write)
  | [] => some ([], [])
  | e :: rest =>
    match e.name with
    | none => regUsersLoop fs fuel usersP rest
    | some uname =>
      if skipUserName uname then regUsersLoop fs fuel usersP rest
      else do
        let (l, w) ← regUserHives fs fuel usersP uname
        let (l2, w2) ← regUsersLoop fs fuel usersP rest
        some (l ++ l2, w ++ w2)

/-- The per-user registry category: without a users container log
`[REG-USER] No Users folder found to extract per-user registry hives`;
a failing user listing logs `[REG-USER] enumerate users failed`. -/
def regUserStep (fs : FS) (fuel : Nat) (usersP : Option String) :
    Option (List LogMsg × List Write) :=
  match usersP with
  | none =>
    some ([.info "[REG-USER] No Users folder found to extract per-user registry hives"], [])
  | some up =>
    match fs.openDir up with
    | none => some ([.info "[REG-USER] enumerate users failed"], [])
    | some es => regUsersLoop fs fuel up es

/-- `extract_artifacts(image_path, output_root, ...)` from the point
where the container is open: open the image and select a volume (failure
propagates to the caller as the run's overall failure), then run every
catalog category in order and return `True`.  The result collects the
log lines and destination writes of the run; `none` models a run that
does not terminate within the copier fuel bound. -/
def extract_artifacts (img : Image) (fuel : Nat) :
    Option (Except OpenError (List LogMsg × List Write × Bool)) :=
  match open_ewf_image_and_find_fs img with
  | .error e => some (.error e)
  | .ok (fs, _, _) => do
    let (l1, w1) ← sysHivesStep fs fuel system_targets
    let (l2, w2) ← fsArtifactsStep fs fuel
    let (l3, w3) ← usnStep fs fuel
    let (l4, w4) ← prefetchStep fs fuel
    let up := usersPath fs
    let (l5, w5) ← browsersStep fs fuel up
    let (l6, w6) ← regUserStep fs fuel up
    some (.ok (
      [.info "Opened image", .info "Filesystem opened",
       .info "Extracting system registry hives (SYSTEM, SOFTWARE, SAM, SECURITY, DEFAULT)..."] ++
        l1 ++
      [.info "Extracting filesystem metadata artifacts ($MFT, $LogFile, $J)..."] ++ l2 ++ l3 ++
      [.info "Extracting Prefetch..."] ++ l4 ++
      [.info "Extracting browser artifacts (Chrome & Edge) per user..."] ++ l5 ++
      [.info "Extracting per-user registry hives (NTUSER.DAT & UsrClass.dat)..."] ++ l6 ++
      [.info "Extraction finished."],
      w1 ++ w2 ++ w3 ++ w4 ++ w5 ++ w6, true))

/-! ## Derived notions used by the statements -/

/-- The names the directory branch of the copier actually recurses into:
entries with a usable name that is neither `"."` nor `".."`, in listing
order. -/
def realNames (entries : List DirEntry) : List String :=
  (entries.filterMap (fun e => e.name)).filter (fun n => !(n == "." || n == ".."))

/-- `ResolveChain fs cur parts stop`: walking `parts` from `cur` with the
resolver's per-component step (open the directory, take the first
case-insensitive match) succeeds for every component and ends at the
resolved path `stop`. -/
inductive ResolveChain (fs : FS) : String → List String → String → Prop
  | nil (cur : String) : ResolveChain fs cur [] cur
  | cons (cur part found : String) (rest : List String) (stop : String) (es : List DirEntry) :
      fs.openDir cur = some es →
      firstCIMatch es part = some found →
      ResolveChain fs (childPath cur found) rest stop →
      ResolveChain fs cur (part :: rest) stop

/-! ## Concrete instances used as witnesses -/

/-- A volume holding one file `/data.bin` with declared size 10 but only
3 bytes of readable data. -/
def fsTrunc : FS where
  openDir := fun p => if p == "/" then some [⟨some "data.bin"⟩] else none
  openFile := fun p => if p == "/data.bin" then some ⟨some 10, [1, 2, 3]⟩ else none

/-- A volume holding one file `/z.bin` whose metadata declares size 0
while the stream yields two bytes. -/
def fsZero : FS where
  openDir := fun p => if p == "/" then some [⟨some "z.bin"⟩] else none
  openFile := fun p => if p == "/z.bin" then some ⟨some 0, [7, 8]⟩ else none

/-- A volume where `/x` resolves but can be opened neither as a directory
nor as a file. -/
def fsOpenFail : FS where
  openDir := fun p => if p == "/" then some [⟨some "x"⟩] else none
  openFile := fun _ => none

/-- The listing of `/D` in `fsPartial`: the two synthetic entries plus a
readable file `a` and an unreadable file `b`. -/
def entsPartial : List DirEntry := [⟨some "."⟩, ⟨some ".."⟩, ⟨some "a"⟩, ⟨some "b"⟩]

/-- A volume with a directory `/D` of two files, of which only `/D/a` can
be opened. -/
def fsPartial : FS where
  openDir := fun p =>
    if p == "/" then some [⟨some "D"⟩]
    else if p == "/D" then some entsPartial
    else none
  openFile := fun p => if p == "/D/a" then some ⟨some 1, [7]⟩ else none

/-- Per-child copy outcome of `fsPartial`'s directory `/D`: only `a`
succeeds. -/
def bresPartial (n : String) : Bool := n == "a"

/-- Per-child logs of `fsPartial`'s directory `/D`. -/
def lgsPartial (n : String) : List LogMsg :=
  if n == "a" then [.saved "/D/a" ["out", "a"]] else [.errOpen ("/D/" ++ n)]

/-- Per-child writes of `fsPartial`'s directory `/D`. -/
def wrsPartial (n : String) : List Write :=
  if n == "a" then [(["out", "a"], [7])] else []

/-- A volume whose root listing exposes the synthetic `".."` entry. -/
def fsDotDot : FS where
  openDir := fun p => if p == "/" then some [⟨some ".."⟩, ⟨some "Windows"⟩] else none
  openFile := fun _ => none

/-- A volume where `/Windows` exists and is an empty directory, so a
deeper component is the first missing one. -/
def fsChain : FS where
  openDir := fun p =>
    if p == "/" then some [⟨some "Windows"⟩]
    else if p == "/Windows" then some []
    else none
  openFile := fun _ => none

/-- A volume with mixed-case `/Windows/System32` for the
case-insensitivity witness. -/
def fsCase : FS where
  openDir := fun p =>
    if p == "/" then some [⟨some "Windows"⟩]
    else if p == "/Windows" then some [⟨some "System32"⟩]
    else none
  openFile := fun _ => none

/-- A filesystem whose root contains a `Windows` directory. -/
def fsWinRoot : FS where
  openDir := fun p => if p == "/" then some [⟨some "Windows"⟩] else none
  openFile := fun _ => none

/-- A well-formed single-partition image: no filesystem at offset 0, one
partition starting at sector 2 with a Windows filesystem at byte offset
1024. -/
def imgSinglePart : Image where
  fsAt := fun off => if off == 1024 then some fsWinRoot else none
  volume := some ⟨some 512, [⟨2, 100, "NTFS"⟩]⟩

/-- A zero-length partition entry with positive start sector. -/
def partZeroLen : Partition := ⟨1, 0, "p"⟩

/-- The partition table of `imgZeroLen`. -/
def volZeroLen : VolumeInfo := ⟨some 512, [partZeroLen]⟩

/-- An image whose only partition has length 0 yet hosts a Windows
filesystem at byte offset 512. -/
def imgZeroLen : Image where
  fsAt := fun off => if off == 512 then some fsWinRoot else none
  volume := some volZeroLen

/-- A filesystem with an empty root: every catalog target misses and no
users container exists. -/
def fsEmptyRoot : FS where
  openDir := fun p => if p == "/" then some [] else none
  openFile := fun _ => none

/-- An unpartitioned image carrying `fsEmptyRoot` at offset 0. -/
def imgEmptyRoot : Image where
  fsAt := fun off => if off == 0 then some fsEmptyRoot else none
  volume := none

/-! ## Helper lemmas on the read loops -/

theorem drop_length_take {α : Type _} (l : List α) (n : Nat) :
    l.drop ((l.take n).length) = l.drop n := by
  rw [List.length_take]
  rcases Nat.le_total n l.length with h | h
  · rw [min_eq_left h]
  · rw [min_eq_right h, List.drop_eq_nil_of_le (Nat.le_refl _), List.drop_eq_nil_of_le h]

/-- The no-size loop reads the whole remaining stream: 8192-byte reads
from `offset` until an empty read concatenate to `content.drop offset`. -/
theorem readNoSizeLoop_eq (f : FileHandle) (offset : Nat) :
    readNoSizeLoop f offset = f.content.drop offset := by
  rw [readNoSizeLoop]
  split
  next h =>
    simp only [read_random, List.length_take, List.length_drop] at h
    have hle : f.content.length ≤ offset := by omega
    rw [List.drop_eq_nil_of_le hle]
  next h =>
    rw [readNoSizeLoop_eq f (offset + (read_random f offset 8192).length)]
    simp only [read_random]
    rw [← List.drop_drop, drop_length_take]
    exact List.take_append_drop 8192 _
termination_by f.content.length - offset
decreasing_by
  simp only [read_random, List.length_take, List.length_drop] at *
  omega

/-- The sized loop reads up to `size` bytes of the remaining stream,
stopping at a short or empty read: it concatenates to
`(content.drop offset).take (size - offset)`. -/
theorem readSizedLoop_eq (f : FileHandle) (size offset : Nat) :
    readSizedLoop f size offset = (f.content.drop offset).take (size - offset) := by
  rw [readSizedLoop]
  split
  next h =>
    split
    next h2 =>
      simp only [read_random, List.length_take, List.length_drop] at h2
      have hC : 0 < CHUNK := by norm_num [CHUNK]
      have hle : f.content.length ≤ offset := by omega
      rw [List.drop_eq_nil_of_le hle, List.take_nil]
    next h2 =>
      rw [readSizedLoop_eq f size (offset + (read_random f offset (min CHUNK (size - offset))).length)]
      simp only [read_random]
      rw [← List.drop_drop, drop_length_take, List.length_take]
      rcases Nat.le_total (f.content.drop offset).length (min CHUNK (size - offset)) with hc | hc
      · rw [List.take_of_length_le hc, List.drop_eq_nil_of_le hc, List.take_nil, List.append_nil]
        have hz : (f.content.drop offset).length ≤ size - offset :=
          le_trans hc (Nat.min_le_right _ _)
        rw [List.take_of_length_le hz]
      · rw [min_eq_left hc]
        have h3 : size - (offset + min CHUNK (size - offset)) =
            (size - offset) - min CHUNK (size - offset) := by omega
        rw [h3, ← List.take_add]
        have hm2 : min CHUNK (size - offset) ≤ size - offset := Nat.min_le_right _ _
        have h4 : min CHUNK (size - offset) + ((size - offset) - min CHUNK (size - offset)) =
            size - offset := by omega
        rw [h4]
  next h =>
    have hz : size - offset = 0 := by omega
    rw [hz, List.take_zero]
termination_by size - offset
decreasing_by
  simp only [read_random, List.length_take, List.length_drop] at *
  omega

/-- A file whose metadata-declared size bounds the available data from
above is streamed in full: the destination receives exactly the bytes the
source yields. -/
theorem fileBytesOut_eq_content (f : FileHandle) (S : Nat) (hm : f.metaSize = some S)
    (hlen : f.content.length ≤ S) : fileBytesOut f = f.content := by
  simp only [fileBytesOut, hm]
  by_cases h : S = 0
  · rw [if_pos h, readNoSizeLoop_eq, List.drop_zero]
  · rw [if_neg h, readSizedLoop_eq, Nat.sub_zero, List.drop_zero, List.take_of_length_le hlen]

/-- A file with declared size `0` takes the no-size branch and is read
until EOF: the destination receives the whole available stream. -/
theorem fileBytesOut_of_zero_size (f : FileHandle) (hm : f.metaSize = some 0) :
    fileBytesOut f = f.content := by
  simp only [fileBytesOut, hm, if_true]
  rw [readNoSizeLoop_eq, List.drop_zero]

/-! ## Helper lemmas on the copier -/

/-- The file branch of the copier in one equation: a resolvable source
that is not a directory but opens as a file is saved, writing
`fileBytesOut f`. -/
theorem copy_file_eq (fs : FS) (srcPath : String) (dstPath : List String)
    (fuel : Nat) (realSrc : String) (f : FileHandle)
    (hres : resolve_case_insensitive_path fs srcPath = .ok realSrc)
    (hdir : fs.openDir realSrc = none)
    (hfile : fs.openFile realSrc = some f) :
    copy_file_or_dir fs (fuel + 1) srcPath dstPath =
      some (true, [.saved realSrc dstPath], [(dstPath, fileBytesOut f)]) := by
  simp only [copy_file_or_dir, hres, hdir, hfile]

/-- The entry loop of the directory branch, described through the
per-child results: when every real child (named, not `"."`/`".."`)
produces the outcome `(bres n, lgs n, wrs n)`, the loop returns the OR of
the child outcomes with logs and writes concatenated in listing order. -/
theorem copyChildren_spec (recur : String → List String → Option (Bool × List LogMsg × List Write))
    (realSrc : String) (dstPath : List String) (entries : List DirEntry)
    (bres : String → Bool) (lgs : String → List LogMsg) (wrs : String → List Write)
    (h : ∀ n ∈ realNames entries,
      recur (realSrc ++ "/" ++ n) (dstPath ++ [n]) = some (bres n, lgs n, wrs n)) :
    copyChildren recur realSrc dstPath entries =
      some ((realNames entries).any bres, ((realNames entries).map lgs).flatten,
        ((realNames entries).map wrs).flatten) := by
  induction entries with
  | nil => simp [copyChildren, realNames]
  | cons e rest ih =>
    cases he : e.name with
    | none =>
      have hr : realNames (e :: rest) = realNames rest := by
        simp [realNames, List.filterMap_cons, he]
      simp only [copyChildren, he]
      rw [hr]
      exact ih (fun n hn => h n (by rw [hr]; exact hn))
    | some name =>
      by_cases hd : name = "." ∨ name = ".."
      · have hr : realNames (e :: rest) = realNames rest := by
          simp only [realNames, List.filterMap_cons, he, List.filter_cons]
          rcases hd with rfl | rfl <;> simp
        simp only [copyChildren, he, if_pos hd]
        rw [hr]
        exact ih (fun n hn => h n (by rw [hr]; exact hn))
      · push_neg at hd
        have hr : realNames (e :: rest) = name :: realNames rest := by
          simp only [realNames, List.filterMap_cons, he, List.filter_cons]
          simp [hd.1, hd.2]
        have hd' : ¬(name = "." ∨ name = "..") := by
          rintro (h1 | h1)
          · exact hd.1 h1
          · exact hd.2 h1
        simp only [copyChildren, he, if_neg hd']
        rw [h name (by rw [hr]; exact List.mem_cons_self _ _)]
        rw [ih (fun n hn => h n (by rw [hr]; exact List.mem_cons_of_mem _ hn))]
        rw [hr]
        simp

/-! ## Helper lemmas on the resolver -/

/-- The per-step entry scan only depends on the lower-cased component. -/
theorem firstCIMatch_lower_congr (entries : List DirEntry) (p q : String)
    (h : lowerStr p = lowerStr q) :
    firstCIMatch entries p = firstCIMatch entries q := by
  induction entries with
  | nil => rfl
  | cons e rest ih =>
    simp only [firstCIMatch]
    cases e.name with
    | none => exact ih
    | some name => rw [h, ih]

/-- Step equation: an unopenable current directory fails the walk. -/
theorem resolveFrom_cons_none (fs : FS) (cur p : String) (rest : List String)
    (hd : fs.openDir cur = none) :
    resolveFrom fs cur (p :: rest) = .error (.cannotOpen cur) := by
  simp [resolveFrom, hd]

/-- Step equation: a component without a case-insensitive match fails the
walk naming that component. -/
theorem resolveFrom_cons_notFound (fs : FS) (cur p : String) (rest : List String)
    (es : List DirEntry) (hd : fs.openDir cur = some es)
    (hm : firstCIMatch es p = none) :
    resolveFrom fs cur (p :: rest) = .error (.notFound p cur) := by
  simp [resolveFrom, hd, hm]

/-- Step equation: a matched component descends into the child path. -/
theorem resolveFrom_cons_found (fs : FS) (cur p : String) (rest : List String)
    (es : List DirEntry) (found : String) (hd : fs.openDir cur = some es)
    (hm : firstCIMatch es p = some found) :
    resolveFrom fs cur (p :: rest) = resolveFrom fs (childPath cur found) rest := by
  simp [resolveFrom, hd, hm]

/-- The component walk is case-insensitive: component lists that agree
after lower-casing either both fail or both resolve to the same path. -/
theorem resolveFrom_ci (fs : FS) (l₁ l₂ : List String) (cur : String)
    (h : l₁.map lowerStr = l₂.map lowerStr) :
    (∃ e₁ e₂, resolveFrom fs cur l₁ = .error e₁ ∧ resolveFrom fs cur l₂ = .error e₂) ∨
    (∃ s, resolveFrom fs cur l₁ = .ok s ∧ resolveFrom fs cur l₂ = .ok s) := by
  induction l₁ generalizing l₂ cur with
  | nil =>
    have h2 : l₂ = [] := by
      cases l₂ with
      | nil => rfl
      | cons q qs => simp at h
    subst h2
    right
    exact ⟨cur, rfl, rfl⟩
  | cons p rest ih =>
    cases l₂ with
    | nil => simp at h
    | cons q rest₂ =>
      simp only [List.map_cons, List.cons.injEq] at h
      obtain ⟨hpq, hrest⟩ := h
      cases hd : fs.openDir cur with
      | none =>
        rw [resolveFrom_cons_none fs cur p rest hd, resolveFrom_cons_none fs cur q rest₂ hd]
        exact Or.inl ⟨_, _, rfl, rfl⟩
      | some entries =>
        have hcong := firstCIMatch_lower_congr entries p q hpq
        cases hm : firstCIMatch entries q with
        | none =>
          rw [resolveFrom_cons_notFound fs cur p rest entries hd (hcong.trans hm),
            resolveFrom_cons_notFound fs cur q rest₂ entries hd hm]
          exact Or.inl ⟨_, _, rfl, rfl⟩
        | some found =>
          rw [resolveFrom_cons_found fs cur p rest entries found hd (hcong.trans hm),
            resolveFrom_cons_found fs cur q rest₂ entries found hd hm]
          exact ih rest₂ (childPath cur found) hrest

/-- The resolver walk characterised on errors: a failure decomposes the
component list into a successfully resolved prefix (a `ResolveChain`
ending at `stop`) followed by the failing component `c`, with the error
naming exactly that point — either the directory `stop` cannot be opened
(`cannotOpen stop`) or `c` has no case-insensitive match in it
(`notFound c stop`). -/
theorem resolveFrom_error_spec (fs : FS) (parts : List String) (cur : String)
    (e : ResolveError) (h : resolveFrom fs cur parts = .error e) :
    ∃ pre c post stop, parts = pre ++ c :: post ∧ ResolveChain fs cur pre stop ∧
      ((fs.openDir stop = none ∧ e = .cannotOpen stop) ∨
       (∃ es, fs.openDir stop = some es ∧ firstCIMatch es c = none ∧
         e = .notFound c stop)) := by
  induction parts generalizing cur with
  | nil => simp [resolveFrom] at h
  | cons p rest ih =>
    cases hd : fs.openDir cur with
    | none =>
      rw [resolveFrom_cons_none fs cur p rest hd] at h
      refine ⟨[], p, rest, cur, rfl, .nil cur, Or.inl ⟨hd, ?_⟩⟩
      injection h with h'
      exact h'.symm
    | some es =>
      cases hm : firstCIMatch es p with
      | none =>
        rw [resolveFrom_cons_notFound fs cur p rest es hd hm] at h
        refine ⟨[], p, rest, cur, rfl, .nil cur, Or.inr ⟨es, hd, hm, ?_⟩⟩
        injection h with h'
        exact h'.symm
      | some found =>
        rw [resolveFrom_cons_found fs cur p rest es found hd hm] at h
        obtain ⟨pre, c, post, stop, hparts, hchain, hcase⟩ := ih (childPath cur found) h
        exact ⟨p :: pre, c, post, stop, by rw [hparts, List.cons_append],
          .cons cur p found pre stop es hd hm hchain, hcase⟩

/-! ## Claim theorems -/

/-- **C1** — For every file copy where the filesystem metadata declares a
positive size `S` but the source yields data only for the first `K < S`
bytes, the Recursive Copier stops at the short read and the destination
file on local storage contains exactly the `K` available bytes, not `S`. -/
theorem copy_truncated_file_exact (fs : FS) (srcPath : String) (dstPath : List String)
    (fuel : Nat) (realSrc : String) (f : FileHandle) (S : Nat)
    (hres : resolve_case_insensitive_path fs srcPath = .ok realSrc)
    (hdir : fs.openDir realSrc = none)
    (hfile : fs.openFile realSrc = some f)
    (hsize : f.metaSize = some S)
    (hK : f.content.length < S) :
    copy_file_or_dir fs (fuel + 1) srcPath dstPath =
      some (true, [.saved realSrc dstPath], [(dstPath, f.content)]) ∧
    f.content.length ≠ S := by
  refine ⟨?_, by omega⟩
  simp only [copy_file_or_dir, hres, hdir, hfile]
  rw [fileBytesOut_eq_content f S hsize (Nat.le_of_lt hK)]

/-- Witness for `copy_truncated_file_exact`: copying `/data.bin` of
`fsTrunc` (declared size 10, 3 readable bytes) writes exactly 3 bytes. -/
theorem copy_truncated_file_exact_witness :
    copy_file_or_dir fsTrunc 1 "/data.bin" ["filesystem", "data.bin"] =
      some (true, [.saved "/data.bin" ["filesystem", "data.bin"]],
        [(["filesystem", "data.bin"], [1, 2, 3])]) ∧
    ([1, 2, 3] : List Nat).length ≠ 10 :=
  copy_truncated_file_exact fsTrunc "/data.bin" ["filesystem", "data.bin"] 0 "/data.bin"
    ⟨some 10, [1, 2, 3]⟩ 10 (by rfl) rfl rfl rfl (by decide)

/-- **C10** — A file whose metadata reports size exactly 0 takes the
no-size branch (8192-byte reads until an empty read), so a declared-size-0
file whose stream yields data produces a non-empty destination file. -/
theorem copy_zero_declared_size_reads_stream (fs : FS) (srcPath : String)
    (dstPath : List String) (fuel : Nat) (realSrc : String) (f : FileHandle)
    (hres : resolve_case_insensitive_path fs srcPath = .ok realSrc)
    (hdir : fs.openDir realSrc = none)
    (hfile : fs.openFile realSrc = some f)
    (hsize : f.metaSize = some 0)
    (hne : f.content ≠ []) :
    copy_file_or_dir fs (fuel + 1) srcPath dstPath =
      some (true, [.saved realSrc dstPath], [(dstPath, f.content)]) ∧
    f.content ≠ [] := by
  refine ⟨?_, hne⟩
  simp only [copy_file_or_dir, hres, hdir, hfile]
  rw [fileBytesOut_of_zero_size f hsize]

/-- Witness for `copy_zero_declared_size_reads_stream`: copying `/z.bin`
of `fsZero` (declared size 0, two stream bytes) writes both bytes. -/
theorem copy_zero_declared_size_reads_stream_witness :
    copy_file_or_dir fsZero 1 "/z.bin" ["out", "z.bin"] =
      some (true, [.saved "/z.bin" ["out", "z.bin"]], [(["out", "z.bin"], [7, 8])]) ∧
    ([7, 8] : List Nat) ≠ [] :=
  copy_zero_declared_size_reads_stream fsZero "/z.bin" ["out", "z.bin"] 0 "/z.bin"
    ⟨some 0, [7, 8]⟩ (by rfl) rfl rfl rfl (by decide)

/-- **C7** — A top-level resolution failure makes the Recursive Copier
return `false` with a `MISSING` diagnostic, and a resolved file source
that cannot be opened makes it return `false` with the open-failure log;
in both cases the copier returns normally (the embedding's copier has no
error channel beyond these values), so nothing is raised past its
boundary. -/
theorem copy_failures_return_false :
    (∀ (fs : FS) (srcPath : String) (dstPath : List String) (fuel : Nat) (e : ResolveError),
      resolve_case_insensitive_path fs srcPath = .error e →
      copy_file_or_dir fs (fuel + 1) srcPath dstPath =
        some (false, [.missing srcPath e], [])) ∧
    (∀ (fs : FS) (srcPath : String) (dstPath : List String) (fuel : Nat) (realSrc : String),
      resolve_case_insensitive_path fs srcPath = .ok realSrc →
      fs.openDir realSrc = none → fs.openFile realSrc = none →
      copy_file_or_dir fs (fuel + 1) srcPath dstPath =
        some (false, [.errOpen realSrc], [])) := by
  constructor
  · intro fs srcPath dstPath fuel e hres
    simp only [copy_file_or_dir, hres]
  · intro fs srcPath dstPath fuel realSrc hres hdir hfile
    simp only [copy_file_or_dir, hres, hdir, hfile]

/-- Witness for `copy_failures_return_false`: on `fsOpenFail`, copying
the unresolvable `/nope` yields `false` with a `MISSING` log, and copying
`/x` (resolvable, unopenable) yields `false` with the open-failure log. -/
theorem copy_failures_return_false_witness :
    copy_file_or_dir fsOpenFail 1 "/nope" ["d"] =
      some (false, [.missing "/nope" (.notFound "nope" "/")], []) ∧
    copy_file_or_dir fsOpenFail 1 "/x" ["d"] = some (false, [.errOpen "/x"], []) :=
  ⟨copy_failures_return_false.1 fsOpenFail "/nope" ["d"] 0 (.notFound "nope" "/") (by rfl),
   copy_failures_return_false.2 fsOpenFail "/x" ["d"] 0 "/x" (by rfl) rfl rfl⟩

/-- **C8** — Copying a directory whose children individually succeed or
fail still writes every successful child's bytes and returns `true` as
soon as at least one child succeeded: success is the logical OR over the
per-child results, with `"."` and `".."` skipped, and the destination
receives exactly the writes of the successful children. -/
theorem copy_dir_partial_failures (fs : FS) (srcPath : String) (dstPath : List String)
    (fuel : Nat) (realSrc : String) (entries : List DirEntry)
    (bres : String → Bool) (lgs : String → List LogMsg) (wrs : String → List Write)
    (hres : resolve_case_insensitive_path fs srcPath = .ok realSrc)
    (hdir : fs.openDir realSrc = some entries)
    (hch : ∀ n ∈ realNames entries,
      copy_file_or_dir fs fuel (realSrc ++ "/" ++ n) (dstPath ++ [n]) =
        some (bres n, lgs n, wrs n))
    (hsome : ∃ n ∈ realNames entries, bres n = true) :
    copy_file_or_dir fs (fuel + 1) srcPath dstPath =
      some (true, ((realNames entries).map lgs).flatten,
        ((realNames entries).map wrs).flatten) := by
  simp only [copy_file_or_dir, hres, hdir]
  rw [copyChildren_spec (copy_file_or_dir fs fuel) realSrc dstPath entries bres lgs wrs hch]
  rw [List.any_eq_true.mpr hsome]

/-- Witness for `copy_dir_partial_failures`: copying `/D` of `fsPartial`
(two files, one unreadable) writes the readable file's bytes and returns
`true`. -/
theorem copy_dir_partial_failures_witness :
    copy_file_or_dir fsPartial 2 "/D" ["out"] =
      some (true, [.saved "/D/a" ["out", "a"], .errOpen "/D/b"], [(["out", "a"], [7])]) := by
  have hch : ∀ n ∈ realNames entsPartial,
      copy_file_or_dir fsPartial 1 ("/D" ++ "/" ++ n) (["out"] ++ [n]) =
        some (bresPartial n, lgsPartial n, wrsPartial n) := by
    have hrn : realNames entsPartial = ["a", "b"] := rfl
    intro n hn
    rw [hrn] at hn
    simp only [List.mem_cons, List.not_mem_nil, or_false] at hn
    rcases hn with rfl | rfl
    · show copy_file_or_dir fsPartial (0 + 1) "/D/a" ["out", "a"] =
        some (bresPartial "a", lgsPartial "a", wrsPartial "a")
      rw [copy_file_eq fsPartial "/D/a" ["out", "a"] 0 "/D/a" ⟨some 1, [7]⟩ (by rfl) rfl rfl,
        fileBytesOut_eq_content _ 1 rfl (by decide)]
      rfl
    · rfl
  have h := copy_dir_partial_failures fsPartial "/D" ["out"] 1 "/D" entsPartial
    bresPartial lgsPartial wrsPartial (by rfl) rfl hch ⟨"a", by decide, rfl⟩
  exact h

/-- **C9 counterexample** — The Path Resolver does not filter the
synthetic directory entries: resolving the logical path `/..` against
`fsDotDot` succeeds by matching the component `".."` against the
synthetic `".."` entry of the root listing, so a resolution step does
match a path component against a synthetic entry. -/
theorem resolver_matches_synthetic_entry :
    resolve_case_insensitive_path fsDotDot "/.." = .ok "/.." ∧
    firstCIMatch [⟨some ".."⟩, ⟨some "Windows"⟩] ".." = some ".." :=
  ⟨by rfl, rfl⟩

/-- **C9 (amended)** — The Recursive Copier skips the synthetic `"."`
and `".."` entries when iterating a directory, and the Path Resolver
never processes a `"."` component (single dots are stripped from the
logical path by the path parsing); but the Resolver itself does not
filter the synthetic entries, so a `".."` component can match them (see
`resolver_matches_synthetic_entry`). -/
theorem copier_skips_synthetic_entries :
    (∀ (recur : String → List String → Option (Bool × List LogMsg × List Write))
       (realSrc : String) (dstPath : List String) (name : String) (rest : List DirEntry),
      name = "." ∨ name = ".." →
      copyChildren recur realSrc dstPath (⟨some name⟩ :: rest) =
        copyChildren recur realSrc dstPath rest) ∧
    (∀ path : String, "." ∉ pathParts path) := by
  constructor
  · intro recur realSrc dstPath name rest hd
    simp only [copyChildren, if_pos hd]
  · intro path h
    have hf : ∀ l : List String, "." ∉ l.filter (fun p => !(p == "" || p == ".")) := by
      intro l hl
      have := (List.mem_filter.mp hl).2
      simp at this
    simp only [pathParts] at h
    split at h
    · exact hf _ h
    · rcases List.mem_cons.mp h with h1 | h1
      · exact absurd h1 (by decide)
      · exact hf _ h1
    · exact hf _ h

/-- Witness for `copier_skips_synthetic_entries`: a `"."` entry is
skipped by the entry loop, and `"."` is not a component of
`/Windows/./System32`. -/
theorem copier_skips_synthetic_entries_witness :
    copyChildren (fun _ _ => some (false, [], [])) "/D" ["out"] [⟨some "."⟩] =
      copyChildren (fun _ _ => some (false, [], [])) "/D" ["out"] [] ∧
    "." ∉ pathParts "/Windows/./System32" :=
  ⟨copier_skips_synthetic_entries.1 (fun _ _ => some (false, [], [])) "/D" ["out"] "." []
      (Or.inl rfl),
   copier_skips_synthetic_entries.2 "/Windows/./System32"⟩

/-- **C5** — The Path Resolver is case-insensitive: two logical paths
whose component lists agree up to letter case either both fail or resolve
to the identical on-disk path. -/
theorem resolver_case_insensitive (fs : FS) (p₁ p₂ : String)
    (h : (pathParts p₁).map lowerStr = (pathParts p₂).map lowerStr) :
    (∃ e₁ e₂, resolve_case_insensitive_path fs p₁ = .error e₁ ∧
       resolve_case_insensitive_path fs p₂ = .error e₂) ∨
    (∃ s, resolve_case_insensitive_path fs p₁ = .ok s ∧
       resolve_case_insensitive_path fs p₂ = .ok s) := by
  unfold resolve_case_insensitive_path
  by_cases h1 : p₁ = "" ∨ p₁ = "/"
  · rw [if_pos h1]
    have hp1 : pathParts p₁ = [] := by rcases h1 with rfl | rfl <;> rfl
    by_cases h2 : p₂ = "" ∨ p₂ = "/"
    · rw [if_pos h2]
      exact Or.inr ⟨"/", rfl, rfl⟩
    · rw [if_neg h2]
      rw [hp1] at h
      have hp2 : pathParts p₂ = [] := by
        have h' := h.symm
        rw [List.map_nil] at h'
        rwa [List.map_eq_nil_iff] at h' 
      rw [hp2]
      exact Or.inr ⟨"/", rfl, rfl⟩
  · rw [if_neg h1]
    by_cases h2 : p₂ = "" ∨ p₂ = "/"
    · rw [if_pos h2]
      have hp2 : pathParts p₂ = [] := by rcases h2 with rfl | rfl <;> rfl
      rw [hp2] at h
      have hp1 : pathParts p₁ = [] := by
        rw [List.map_nil] at h
        rwa [List.map_eq_nil_iff] at h
      rw [hp1]
      exact Or.inr ⟨"/", rfl, rfl⟩
    · rw [if_neg h2]
      exact resolveFrom_ci fs (pathParts p₁) (pathParts p₂) "/" h

/-- Witness for `resolver_case_insensitive`: `/WINDOWS/system32` and
`/windows/System32` against `fsCase`. -/
theorem resolver_case_insensitive_witness :
    (∃ e₁ e₂, resolve_case_insensitive_path fsCase "/WINDOWS/system32" = .error e₁ ∧
       resolve_case_insensitive_path fsCase "/windows/System32" = .error e₂) ∨
    (∃ s, resolve_case_insensitive_path fsCase "/WINDOWS/system32" = .ok s ∧
       resolve_case_insensitive_path fsCase "/windows/System32" = .ok s) :=
  resolver_case_insensitive fsCase "/WINDOWS/system32" "/windows/System32" (by rfl)

/-- **C6** — A failing resolution decomposes the logical path into a
prefix of components that all matched (a `ResolveChain` from the root
ending at `stop`) followed by the failing component `c`: the error names
the first (leftmost) missing component, never a later one, when `c` has
no case-insensitive match (`notFound c stop`), and a component whose
directory cannot be opened fails with the other constructor
(`cannotOpen stop`) of the same error type `ResolveError`, the embedding
of Python's single `FileNotFoundError` kind. -/
theorem resolver_error_first_missing (fs : FS) (path : String) (e : ResolveError)
    (h : resolve_case_insensitive_path fs path = .error e) :
    ∃ pre c post stop, pathParts path = pre ++ c :: post ∧
      ResolveChain fs "/" pre stop ∧
      ((fs.openDir stop = none ∧ e = .cannotOpen stop) ∨
       (∃ es, fs.openDir stop = some es ∧ firstCIMatch es c = none ∧
         e = .notFound c stop)) := by
  unfold resolve_case_insensitive_path at h
  split at h
  · exact absurd h (by simp)
  · exact resolveFrom_error_spec fs (pathParts path) "/" e h

/-- Witness for `resolver_error_first_missing`: on `fsChain`, resolving
`/Windows/System32/config` fails at `System32` (the first missing
component) after the prefix `Windows` resolved. -/
theorem resolver_error_first_missing_witness :
    ∃ pre c post stop, pathParts "/Windows/System32/config" = pre ++ c :: post ∧
      ResolveChain fsChain "/" pre stop ∧
      ((fsChain.openDir stop = none ∧
         ResolveError.notFound "System32" "/Windows" = .cannotOpen stop) ∨
       (∃ es, fsChain.openDir stop = some es ∧ firstCIMatch es c = none ∧
         ResolveError.notFound "System32" "/Windows" = .notFound c stop)) :=
  resolver_error_first_missing fsChain "/Windows/System32/config"
    (.notFound "System32" "/Windows") (by rfl)

/-! ## Helper lemmas on the volume selector -/

/-- Step equation: a partition with non-positive start sector is
skipped. -/
theorem findFSLoop_cons_skip (img : Image) (s : Nat) (p : Partition)
    (rest : List Partition) (best : Option (FS × Nat × String)) (h : p.start ≤ 0) :
    findFSLoop img s (p :: rest) best = findFSLoop img s rest best := by
  simp [findFSLoop, h]

/-- Step equation: a partition whose offset does not open as a filesystem
is skipped. -/
theorem findFSLoop_cons_noFS (img : Image) (s : Nat) (p : Partition)
    (rest : List Partition) (best : Option (FS × Nat × String)) (h1 : ¬p.start ≤ 0)
    (h2 : img.fsAt (p.start.toNat * s) = none) :
    findFSLoop img s (p :: rest) best = findFSLoop img s rest best := by
  simp [findFSLoop, h1, h2]

/-- Step equation: a partition whose filesystem's root holds `Windows`,
`Users` or `Documents and Settings` is returned immediately. -/
theorem findFSLoop_cons_hit (img : Image) (s : Nat) (p : Partition)
    (rest : List Partition) (best : Option (FS × Nat × String)) (fs : FS)
    (h1 : ¬p.start ≤ 0) (h2 : img.fsAt (p.start.toNat * s) = some fs)
    (h3 : ((rootNames fs).any (fun n => lowerStr n == "windows") ||
      (rootNames fs).any
        (fun n => lowerStr n == "users" || lowerStr n == "documents and settings")) = true) :
    findFSLoop img s (p :: rest) best = .ok (fs, p.start.toNat * s, descOr p) := by
  simp [findFSLoop, h1, h2, h3]

/-- Step equation: an openable filesystem without the wanted root names
becomes the fallback candidate when none is recorded yet. -/
theorem findFSLoop_cons_miss (img : Image) (s : Nat) (p : Partition)
    (rest : List Partition) (best : Option (FS × Nat × String)) (fs : FS)
    (h1 : ¬p.start ≤ 0) (h2 : img.fsAt (p.start.toNat * s) = some fs)
    (h3 : ((rootNames fs).any (fun n => lowerStr n == "windows") ||
      (rootNames fs).any
        (fun n => lowerStr n == "users" || lowerStr n == "documents and settings")) = false) :
    findFSLoop img s (p :: rest) best =
      findFSLoop img s rest (some (best.getD (fs, p.start.toNat * s, descOr p))) := by
  cases best with
  | none => simp [findFSLoop, h1, h2, h3]
  | some b => simp [findFSLoop, h1, h2, h3]

/-- Any primary (non-fallback recorded) success of the partition loop
comes from a partition of the list with positive start, at byte offset
start sector times sector size, where a filesystem opened. -/
theorem findFSLoop_ok_spec (img : Image) (s : Nat) (parts : List Partition)
    (best : Option (FS × Nat × String)) (fs : FS) (off : Nat) (d : String)
    (h : findFSLoop img s parts best = .ok (fs, off, d)) :
    (∃ p ∈ parts, 0 < p.start ∧ off = p.start.toNat * s ∧ img.fsAt off = some fs) ∨
    best = some (fs, off, d) := by
  induction parts generalizing best with
  | nil =>
    cases best with
    | none => simp [findFSLoop] at h
    | some b =>
      right
      simp only [findFSLoop] at h
      injection h with h'
      rw [h']
  | cons p rest ih =>
    by_cases h1 : p.start ≤ 0
    · rw [findFSLoop_cons_skip img s p rest best h1] at h
      rcases ih best h with ⟨q, hq, hrest⟩ | hb
      · exact Or.inl ⟨q, List.mem_cons_of_mem _ hq, hrest⟩
      · exact Or.inr hb
    · cases h2 : img.fsAt (p.start.toNat * s) with
      | none =>
        rw [findFSLoop_cons_noFS img s p rest best h1 h2] at h
        rcases ih best h with ⟨q, hq, hrest⟩ | hb
        · exact Or.inl ⟨q, List.mem_cons_of_mem _ hq, hrest⟩
        · exact Or.inr hb
      | some fs' =>
        cases h3 : ((rootNames fs').any (fun n => lowerStr n == "windows") ||
          (rootNames fs').any
            (fun n => lowerStr n == "users" || lowerStr n == "documents and settings")) with
        | true =>
          rw [findFSLoop_cons_hit img s p rest best fs' h1 h2 h3] at h
          injection h with h'
          simp only [Prod.mk.injEq] at h'
          obtain ⟨hf, ho, _⟩ := h'
          subst hf
          left
          exact ⟨p, List.mem_cons_self _ _, by omega, ho.symm, ho ▸ h2⟩
        | false =>
          rw [findFSLoop_cons_miss img s p rest best fs' h1 h2 h3] at h
          rcases ih _ h with ⟨q, hq, hrest⟩ | hb
          · exact Or.inl ⟨q, List.mem_cons_of_mem _ hq, hrest⟩
          · cases best with
            | some b =>
              right
              simp only [Option.getD] at hb
              exact hb
            | none =>
              simp only [Option.getD] at hb
              injection hb with hb'
              simp only [Prod.mk.injEq] at hb'
              obtain ⟨hf, ho, _⟩ := hb'
              subst hf
              left
              exact ⟨p, List.mem_cons_self _ _, by omega, ho.symm, ho ▸ h2⟩

/-- **C3** — For a well-formed single-partition image with a Windows
root directory (no filesystem at offset 0, one partition with positive
start whose filesystem opens and whose root contains `Windows`), the
Volume Selector returns that partition's byte offset (start sector times
sector size) and never the offset-0 result. -/
theorem volume_selector_single_partition_windows (img : Image) (vol : VolumeInfo)
    (p : Partition) (fs : FS)
    (h0 : img.fsAt 0 = none)
    (hv : img.volume = some vol)
    (hp : vol.parts = [p])
    (hs : 0 < p.start)
    (hfs : img.fsAt (p.start.toNat * vol.blockSize.getD 512) = some fs)
    (hw : (rootNames fs).any (fun n => lowerStr n == "windows") = true) :
    open_ewf_image_and_find_fs img =
      .ok (fs, p.start.toNat * vol.blockSize.getD 512, descOr p) ∧
    p.start.toNat * vol.blockSize.getD 512 ≠ 0 := by
  have hoff : p.start.toNat * vol.blockSize.getD 512 ≠ 0 := by
    intro hz
    rw [hz, h0] at hfs
    cases hfs
  refine ⟨?_, hoff⟩
  simp only [open_ewf_image_and_find_fs, h0, hv]
  rw [hp]
  exact findFSLoop_cons_hit img (vol.blockSize.getD 512) p [] none fs (by omega) hfs
    (by rw [hw, Bool.true_or])

/-- Witness for `volume_selector_single_partition_windows`: the
single-partition image `imgSinglePart` (start sector 2, sector size 512,
Windows root) selects byte offset 1024. -/
theorem volume_selector_single_partition_windows_witness :
    open_ewf_image_and_find_fs imgSinglePart =
      .ok (fsWinRoot, (Int.toNat 2) * ((some 512 : Option Nat).getD 512),
        descOr ⟨2, 100, "NTFS"⟩) ∧
    (Int.toNat 2) * ((some 512 : Option Nat).getD 512) ≠ 0 :=
  volume_selector_single_partition_windows imgSinglePart ⟨some 512, [⟨2, 100, "NTFS"⟩]⟩
    ⟨2, 100, "NTFS"⟩ fsWinRoot rfl rfl rfl (by decide) (by rfl) (by rfl)

/-- **C4 counterexample** — The Volume Selector does not require a
positive partition length: on `imgZeroLen`, whose only partition has
length 0 (but positive start), the partition is still considered, its
filesystem opened and returned, instead of being skipped (which would
have produced the `noUsableFilesystem` error). -/
theorem volume_selector_considers_zero_length_partition :
    partZeroLen.length = 0 ∧
    open_ewf_image_and_find_fs imgZeroLen = .ok (fsWinRoot, 512, "p") :=
  ⟨rfl, by rfl⟩

/-- **C4 (amended)** — During partition enumeration the Volume Selector
considers only partitions with positive start sector (entries with
non-positive start are skipped; the partition length is not examined, so
zero-length partitions are also considered), and every partition-loop
selection comes from a partition with positive start at byte offset
start sector times sector size, where a filesystem was opened. -/
theorem volume_selector_positive_start_only :
    (∀ (img : Image) (s : Nat) (p : Partition) (rest : List Partition)
       (best : Option (FS × Nat × String)), p.start ≤ 0 →
      findFSLoop img s (p :: rest) best = findFSLoop img s rest best) ∧
    (∀ (img : Image) (vol : VolumeInfo) (fs : FS) (off : Nat) (d : String),
      img.fsAt 0 = none → img.volume = some vol →
      open_ewf_image_and_find_fs img = .ok (fs, off, d) →
      ∃ p ∈ vol.parts, 0 < p.start ∧ off = p.start.toNat * vol.blockSize.getD 512 ∧
        img.fsAt off = some fs) := by
  constructor
  · intro img s p rest best h
    exact findFSLoop_cons_skip img s p rest best h
  · intro img vol fs off d h0 hv h
    simp only [open_ewf_image_and_find_fs, h0, hv] at h
    rcases findFSLoop_ok_spec img (vol.blockSize.getD 512) vol.parts none fs off d h with
      hl | hr
    · exact hl
    · cases hr

/-- Witness for `volume_selector_positive_start_only`: a partition with
start sector −1 is skipped, and the selection on `imgZeroLen` comes from
its positive-start partition at offset 512. -/
theorem volume_selector_positive_start_only_witness :
    findFSLoop imgZeroLen 512 [⟨-1, 5, "x"⟩] none = findFSLoop imgZeroLen 512 [] none ∧
    ∃ p ∈ volZeroLen.parts, 0 < p.start ∧
      512 = p.start.toNat * volZeroLen.blockSize.getD 512 ∧
      imgZeroLen.fsAt 512 = some fsWinRoot :=
  ⟨volume_selector_positive_start_only.1 imgZeroLen 512 ⟨-1, 5, "x"⟩ [] none (by decide),
   volume_selector_positive_start_only.2 imgZeroLen volZeroLen fsWinRoot 512 "p"
     rfl rfl (by rfl)⟩

/-- **C2** — Whenever the container opens and volume selection succeeds,
a completed extraction run returns overall success `true`, however many
per-category copies failed; and when no `Users` (or
`Documents and Settings`) container resolves, the run still completes,
logs the per-user category misses and returns success. -/
theorem extract_artifacts_overall_success (img : Image) (fuel : Nat)
    (fs : FS) (off : Nat) (d : String)
    (r : Except OpenError (List LogMsg × List Write × Bool))
    (hopen : open_ewf_image_and_find_fs img = .ok (fs, off, d))
    (hrun : extract_artifacts img fuel = some r) :
    ∃ logs writes, r = .ok (logs, writes, true) ∧
      (usersPath fs = none →
        LogMsg.info "[BROWSERS] No Users folder found" ∈ logs ∧
        LogMsg.info "[REG-USER] No Users folder found to extract per-user registry hives"
          ∈ logs) := by
  unfold extract_artifacts at hrun
  rw [hopen] at hrun
  simp only [Option.bind_eq_bind, Option.bind_eq_some] at hrun
  obtain ⟨⟨l1, w1⟩, h1, hrun⟩ := hrun
  obtain ⟨⟨l2, w2⟩, h2, hrun⟩ := hrun
  obtain ⟨⟨l3, w3⟩, h3, hrun⟩ := hrun
  obtain ⟨⟨l4, w4⟩, h4, hrun⟩ := hrun
  obtain ⟨⟨l5, w5⟩, h5, hrun⟩ := hrun
  obtain ⟨⟨l6, w6⟩, h6, hrun⟩ := hrun
  injection hrun with hr
  refine ⟨_, _, hr.symm, ?_⟩
  intro hu
  rw [hu] at h5 h6
  simp only [browsersStep] at h5
  simp only [regUserStep] at h6
  injection h5 with h5'
  injection h6 with h6'
  have hl5 : l5 = [LogMsg.info "[BROWSERS] No Users folder found"] := by
    have := congrArg Prod.fst h5'
    simpa using this.symm
  have hl6 : l6 =
      [LogMsg.info "[REG-USER] No Users folder found to extract per-user registry hives"] := by
    have := congrArg Prod.fst h6'
    simpa using this.symm
  subst hl5
  subst hl6
  constructor <;> simp

/-- Witness for `extract_artifacts_overall_success`: on `imgEmptyRoot`
(opens at offset 0, every artifact missing, no users container) the run
completes with overall success and both per-user miss logs. -/
theorem extract_artifacts_overall_success_witness :
    ∃ r, extract_artifacts imgEmptyRoot 1 = some r ∧
      ∃ logs writes, r = .ok (logs, writes, true) ∧
        (usersPath fsEmptyRoot = none →
          LogMsg.info "[BROWSERS] No Users folder found" ∈ logs ∧
          LogMsg.info "[REG-USER] No Users folder found to extract per-user registry hives"
            ∈ logs) := by
  obtain ⟨r, hr⟩ : ∃ r, extract_artifacts imgEmptyRoot 1 = some r := ⟨_, rfl⟩
  exact ⟨r, hr,
    extract_artifacts_overall_success imgEmptyRoot 1 fsEmptyRoot 0 "offset 0" r (by rfl) hr⟩

end Extractor
